import Mathlib

/-!
Verification of the profile marshaling layer of the `go-klaviyo` SDK.

The Go source is shallowly embedded: JSON documents become the inductive
`JValue`; Go's `map[string]interface{}` becomes an association list over which
insertion (`mapSet`) overwrites the existing entry for a key, so that maps
built from the empty list always have pairwise-distinct keys, exactly as Go
maps do.  Numbers are carried as rationals (the claims never compute with
them, they only pass through).  `encoding/json` is modelled at the level of
already-parsed documents: unmarshalling a `JValue` into a map succeeds on an
object (and, as in Go, on the literal `null`, which is a no-op success), and
unmarshalling into the `Person` struct checks every present reserved key
against its declared type, JSON `null` leaving the zero value in place.
Duplicate keys inside an object literal follow Go's last-write-wins map
semantics.  The HTTP transport is abstracted: each client operation takes the
outcome of the underlying `send` as an explicit argument, together with a
boolean recording whether the network was reached.
-/

namespace Klaviyo

/-- A parsed JSON document (the shapes `encoding/json` can produce). -/
inductive JValue where
  | null : JValue
  | bool (b : Bool) : JValue
  | num (q : ℚ) : JValue
  | str (s : String) : JValue
  | arr (xs : List JValue) : JValue
  | obj (fields : List (String × JValue)) : JValue

/-- Go's `map[string]interface{}` / the `Attributes` type of `person.go`,
as an association list. -/
abbrev Attributes := List (String × JValue)

/-- Lookup in a Go map (first entry wins; maps built by `mapSet` from `[]`
have distinct keys, so this is the unique entry). -/
def mapGet (m : Attributes) (k : String) : Option JValue :=
  match m with
  | [] => none
  | kv :: rest => if kv.1 = k then some kv.2 else mapGet rest k

/-- Go map assignment `m[k] = v`: overwrite the entry for `k` if present,
otherwise add one. -/
def mapSet (m : Attributes) (k : String) (v : JValue) : Attributes :=
  match m with
  | [] => [(k, v)]
  | kv :: rest => if kv.1 = k then (k, v) :: rest else kv :: mapSet rest k v

/-- `for k, v := range entries { m[k] = v }`. -/
def setAll (m : Attributes) (entries : Attributes) : Attributes :=
  entries.foldl (fun acc kv => mapSet acc kv.1 kv.2) m

/-- The `Person` struct of `person.go`: the embedded `Object` (fields `Id`,
`Object`), the `$`-tagged reserved fields in source declaration order, and the
untagged `Attributes` bag. -/
structure Person where
  Id : String
  Object : String
  CustomId : String
  Address1 : String
  Address2 : String
  City : String
  Consent : List String
  Country : String
  Email : String
  FirstName : String
  Image : String
  LastName : String
  Latitude : String
  Longitude : String
  Organization : String
  PhoneNumber : String
  Region : String
  Source : String
  Timezone : String
  Title : String
  Zip : String
  Attributes : Attributes

/-- The zero value of `Person` (all strings empty, nil slice and map). -/
def zeroPerson : Person :=
  { Id := "", Object := "", CustomId := "", Address1 := "", Address2 := ""
    City := "", Consent := [], Country := "", Email := "", FirstName := ""
    Image := "", LastName := "", Latitude := "", Longitude := ""
    Organization := "", PhoneNumber := "", Region := "", Source := ""
    Timezone := "", Title := "", Zip := "", Attributes := [] }

/-- `structToMap(p)`: reflection over the fields of `Person`, keyed by the
`json` tag.  The embedded `Object` field and the `Attributes` field carry no
tag and are therefore skipped; every tagged field is emitted, in declaration
order.  (`Consent []string` has slice kind, so it is emitted directly, not
recursed into.) -/
def structToMap (p : Person) : Attributes :=
  [("$id", JValue.str p.CustomId),
   ("$address1", JValue.str p.Address1),
   ("$address2", JValue.str p.Address2),
   ("$city", JValue.str p.City),
   ("$consent", JValue.arr (p.Consent.map JValue.str)),
   ("$country", JValue.str p.Country),
   ("$email", JValue.str p.Email),
   ("$first_name", JValue.str p.FirstName),
   ("$image", JValue.str p.Image),
   ("$last_name", JValue.str p.LastName),
   ("$latitude", JValue.str p.Latitude),
   ("$longitude", JValue.str p.Longitude),
   ("$organization", JValue.str p.Organization),
   ("$phone_number", JValue.str p.PhoneNumber),
   ("$region", JValue.str p.Region),
   ("$source", JValue.str p.Source),
   ("$timezone", JValue.str p.Timezone),
   ("$title", JValue.str p.Title),
   ("$zip", JValue.str p.Zip)]

/-- `Person.GetMap`: copy `Attributes` into a fresh map, then write every
`structToMap` entry over it. -/
def GetMap (p : Person) : Attributes :=
  setAll (setAll [] p.Attributes) (structToMap p)

def isStr : JValue → Bool
  | JValue.str _ => true
  | _ => false

def isBool : JValue → Bool
  | JValue.bool _ => true
  | _ => false

/-- `Attributes.ParseBool` from `person.go`: missing key is `false`; a string
is `true` exactly for `"true"` and `"1"`; a boolean is itself; every other
type falls through to `false`. -/
def ParseBool (a : Attributes) (k : String) : Bool :=
  match mapGet a k with
  | none => false
  | some (JValue.str s) => s == "true" || s == "1"
  | some (JValue.bool b) => b
  | some _ => false

/-- `unicode.IsSpace`: the White_Space code points. -/
def goIsSpace (c : Char) : Bool :=
  let n := c.toNat
  (9 ≤ n && n ≤ 13) || n == 32 || n == 133 || n == 160 || n == 5760 ||
    (8192 ≤ n && n ≤ 8202) || n == 8232 || n == 8233 || n == 8239 ||
    n == 8287 || n == 12288

/-- `strings.TrimSpace`: drop leading and trailing white space. -/
def goTrimSpace (s : String) : String :=
  String.mk (((s.toList.dropWhile goIsSpace).reverse.dropWhile goIsSpace).reverse)

/-- `Person.HasProfileIdentifier`:
`!(strings.TrimSpace(p.Email) == "" && strings.TrimSpace(p.PhoneNumber) == "")`. -/
def HasProfileIdentifier (p : Person) : Bool :=
  !(goTrimSpace p.Email == "" && goTrimSpace p.PhoneNumber == "")

/-- The `APIError` struct of `klaviyo.go`. -/
structure APIError where
  Raw : String
  Detail : String
  Message : String
deriving DecidableEq

/-- `APIError.Error()`: `Message` if non-empty, else `Detail` if non-empty,
else `Raw`. -/
def APIError.ErrorString (e : APIError) : String :=
  if e.Message ≠ "" then e.Message
  else if e.Detail ≠ "" then e.Detail
  else e.Raw

/-- The error values a client call can return: the sentinel `errors.New`
values of `klaviyo.go`, plus transport, remote, bad-response and decode
errors with their payloads. -/
inductive KErr where
  | noPublicKey : KErr
  | noPrivateKey : KErr
  | noProfileIdentifier : KErr
  | failed : KErr
  | invalidOutArg : KErr
  | transport (msg : String) : KErr
  | api (e : APIError) : KErr
  | badResponse (raw : String) : KErr
  | decodeFailure (msg : String) : KErr
deriving DecidableEq

/-- The `Client` struct (the timeout only bounds the abstracted transport). -/
structure Client where
  PublicKey : String
  PrivateKey : String
  DefaultTimeout : Nat

/-- `trimEmptyValues`: drop entries whose value is nil or the empty string. -/
def trimEmptyValues (m : Attributes) : Attributes :=
  m.filter (fun kv =>
    match kv.2 with
    | JValue.null => false
    | JValue.str s => !(s == "")
    | _ => true)

/-- The `properties` payload `IdentifySafe` serializes. -/
def identifyProps (p : Person) (omitFlag : Bool) : Attributes :=
  if omitFlag then trimEmptyValues (GetMap p) else GetMap p

/-- `Client.IdentifySafe`: public-key check, identifier check, then the GET
to `/identify` (abstracted as `sendResult`); a decoded body other than the
literal `"1"` is `ErrFailed`.  The second component records whether `c.send`
was reached. -/
def IdentifySafe (c : Client) (p : Person) (omitFlag : Bool)
    (sendResult : Except KErr String) : Option KErr × Bool :=
  if c.PublicKey = "" then (some KErr.noPublicKey, false)
  else if !(HasProfileIdentifier p) then (some KErr.noProfileIdentifier, false)
  else
    match sendResult with
    | Except.error e => (some e, true)
    | Except.ok res => if res ≠ "1" then (some KErr.failed, true) else (none, true)

/-- `Client.Identify(person) = IdentifySafe(person, false)`. -/
def Identify (c : Client) (p : Person) (sendResult : Except KErr String) :
    Option KErr × Bool :=
  IdentifySafe c p false sendResult

/-- The `ListPerson` record of `klaviyo.go`. -/
structure ListPerson where
  Id : String
  Email : String
  PhoneNumber : String
  Created : String
deriving DecidableEq

/-- `Client.InList`: if all three identifier slices are empty, return
`(nil, nil)` before touching the network; otherwise the abstracted GET runs.
The boolean records whether `c.send` was reached. -/
def InList (c : Client) (listId : String)
    (emails phoneNumbers pushTokens : List String)
    (netResult : Except KErr (List ListPerson)) :
    (List ListPerson × Option KErr) × Bool :=
  if emails.length = 0 ∧ phoneNumbers.length = 0 ∧ pushTokens.length = 0 then
    (([], none), false)
  else
    match netResult with
    | Except.error e => (([], some e), true)
    | Except.ok xs => ((xs, none), true)

/-- The wire keys `structToMap` emits, in emission order. -/
def wireKeys : List String :=
  ["$id", "$address1", "$address2", "$city", "$consent", "$country", "$email",
   "$first_name", "$image", "$last_name", "$latitude", "$longitude",
   "$organization", "$phone_number", "$region", "$source", "$timezone",
   "$title", "$zip"]

/-- A person whose custom attributes collide with the non-sigil wire keys. -/
def pSigil : Person :=
  { zeroPerson with Id := "y", Attributes := [("id", JValue.str "x")] }

/-- A person with both identifiers of the `Object` header set. -/
def pWire : Person :=
  { zeroPerson with Id := "y", Object := "person", CustomId := "c" }

/-- A person with only blank identifiers. -/
def pBlank : Person :=
  { zeroPerson with Email := "  \t ", PhoneNumber := "" }

/-- A person with a usable email identifier. -/
def pIdent : Person :=
  { zeroPerson with Email := "kitty@monstercat.com" }

/-- A fully configured client. -/
def cliW : Client :=
  { PublicKey := "pub", PrivateKey := "priv", DefaultTimeout := 1000 }

/-! ## Association-list lemmas -/

theorem mapGet_mapSet (m : Attributes) (k k' : String) (v : JValue) :
    mapGet (mapSet m k v) k' = if k' = k then some v else mapGet m k' := by
  induction m with
  | nil =>
      by_cases h : k' = k
      · subst h; simp [mapSet, mapGet]
      · simp [mapSet, mapGet, h, Ne.symm h]
  | cons kv rest ih =>
      by_cases hk : kv.1 = k
      · by_cases h : k' = k
        · subst h; simp [mapSet, mapGet, hk]
        · simp [mapSet, mapGet, hk, h, Ne.symm h]
      · by_cases h : kv.1 = k'
        · have hne : ¬ k' = k := fun hq => hk (h.trans hq)
          simp [mapSet, mapGet, hk, h, hne]
        · simp [mapSet, mapGet, hk, h, ih]

theorem mem_keys_mapSet (m : Attributes) (k k' : String) (v : JValue) :
    k' ∈ (mapSet m k v).map Prod.fst ↔ k' = k ∨ k' ∈ m.map Prod.fst := by
  induction m with
  | nil => simp [mapSet]
  | cons kv rest ih =>
      by_cases hk : kv.1 = k
      · simp only [mapSet, hk, if_true, List.map_cons, List.mem_cons]
        tauto
      · simp only [mapSet, hk, if_false, List.map_cons, List.mem_cons, ih]
        tauto

theorem nodup_keys_mapSet (m : Attributes) (k : String) (v : JValue)
    (h : (m.map Prod.fst).Nodup) : ((mapSet m k v).map Prod.fst).Nodup := by
  induction m with
  | nil => simp [mapSet]
  | cons kv rest ih =>
      rw [List.map_cons, List.nodup_cons] at h
      by_cases hk : kv.1 = k
      · simp only [mapSet, hk, if_true, List.map_cons, List.nodup_cons]
        refine ⟨?_, h.2⟩
        rw [← hk]
        exact h.1
      · simp only [mapSet, hk, if_false, List.map_cons, List.nodup_cons]
        refine ⟨fun hmem => ?_, ih h.2⟩
        rcases (mem_keys_mapSet rest k kv.1 v).mp hmem with h' | h'
        · exact hk h'
        · exact h.1 h'

theorem setAll_cons (m : Attributes) (kv : String × JValue) (es : Attributes) :
    setAll m (kv :: es) = setAll (mapSet m kv.1 kv.2) es := rfl

theorem mapGet_setAll_not_mem (m es : Attributes) (k : String)
    (h : k ∉ es.map Prod.fst) : mapGet (setAll m es) k = mapGet m k := by
  induction es generalizing m with
  | nil => rfl
  | cons kv rest ih =>
      rw [List.map_cons, List.mem_cons] at h
      push_neg at h
      rw [setAll_cons, ih _ h.2, mapGet_mapSet, if_neg h.1]

theorem mapGet_setAll_mem (m es : Attributes) (k : String) (v : JValue)
    (hnd : (es.map Prod.fst).Nodup) (h : (k, v) ∈ es) :
    mapGet (setAll m es) k = some v := by
  induction es generalizing m with
  | nil => simp at h
  | cons kv rest ih =>
      simp at hnd
      rcases List.mem_cons.mp h with h' | h'
      · subst h'
        rw [setAll_cons, mapGet_setAll_not_mem _ _ _ (by simpa using hnd.1),
          mapGet_mapSet]
        simp
      · exact setAll_cons m kv rest ▸ ih _ hnd.2 h'

theorem nodup_keys_setAll (m es : Attributes) (h : (m.map Prod.fst).Nodup) :
    ((setAll m es).map Prod.fst).Nodup := by
  induction es generalizing m with
  | nil => exact h
  | cons kv rest ih => exact setAll_cons m kv rest ▸ ih _ (nodup_keys_mapSet m kv.1 kv.2 h)

theorem mapGet_mem (m : Attributes) (k : String) (v : JValue)
    (h : mapGet m k = some v) : (k, v) ∈ m := by
  induction m with
  | nil => simp [mapGet] at h
  | cons kv rest ih =>
      by_cases h' : kv.1 = k
      · simp [mapGet, h'] at h
        have hkv : kv = (k, v) := by rw [← h', ← h]
        exact hkv ▸ List.mem_cons_self _ _
      · simp [mapGet, h'] at h
        exact List.mem_cons_of_mem _ (ih h)

theorem dropWhile_forall {α : Type} (p : α → Bool) (l : List α) :
    (∀ x ∈ l.dropWhile p, p x = true) ↔ (∀ x ∈ l, p x = true) := by
  constructor
  · intro h x hx
    rw [← List.takeWhile_append_dropWhile (p := p) (l := l)] at hx
    rcases List.mem_append.mp hx with h' | h'
    · exact List.mem_takeWhile_imp h'
    · exact h x h'
  · intro h x hx
    exact h x ((List.dropWhile_sublist p).mem hx)

theorem goTrimSpace_eq_empty (s : String) :
    goTrimSpace s = "" ↔ s.toList.all goIsSpace = true := by
  have h1 : goTrimSpace s = "" ↔
      (s.toList.dropWhile goIsSpace).reverse.dropWhile goIsSpace = [] := by
    rw [goTrimSpace]
    constructor
    · intro h
      have h2 := congrArg String.data h
      simpa using h2
    · intro h
      rw [h]
      rfl
  rw [h1, List.dropWhile_eq_nil_iff, List.all_eq_true]
  constructor
  · intro h x hx
    exact (dropWhile_forall goIsSpace s.toList).mp
      (fun y hy => h y (List.mem_reverse.mpr hy)) x hx
  · intro h x hx
    exact h x ((List.dropWhile_sublist goIsSpace).mem (List.mem_reverse.mp hx))

/-- `HasProfileIdentifier` is `false` exactly when both identifiers are empty
or all white space. -/
theorem hasProfileIdentifier_false_iff (p : Person) :
    HasProfileIdentifier p = false ↔
      (p.Email.toList.all goIsSpace = true ∧
        p.PhoneNumber.toList.all goIsSpace = true) := by
  rw [HasProfileIdentifier]
  rw [← goTrimSpace_eq_empty, ← goTrimSpace_eq_empty]
  cases he : goTrimSpace p.Email == "" <;>
    cases hp : goTrimSpace p.PhoneNumber == "" <;>
      simp_all [beq_iff_eq]

/-! ## Flatten lemmas -/

theorem keys_structToMap (p : Person) :
    (structToMap p).map Prod.fst = wireKeys := rfl

theorem nodup_keys_GetMap (p : Person) :
    ((GetMap p).map Prod.fst).Nodup :=
  nodup_keys_setAll _ _ (nodup_keys_setAll _ _ (by simp))

theorem mapGet_GetMap_reserved (p : Person) (k : String) (v : JValue)
    (h : (k, v) ∈ structToMap p) : mapGet (GetMap p) k = some v := by
  apply mapGet_setAll_mem
  · rw [keys_structToMap]
    decide
  · exact h

/-- C2 counterexample: `pSigil` stores attribute `"id" ↦ "x"` while its
reserved `Id` field is `"y"`; `GetMap` emits the attribute value at key
`"id"`, not the reserved field's value, because `structToMap` never emits
the untagged embedded `Object`. -/
theorem sigil_precedence_cex :
    mapGet (GetMap pSigil) "id" = some (JValue.str "x") ∧ pSigil.Id = "y" ∧
    some (JValue.str "x") ≠ some (JValue.str "y") := by
  refine ⟨rfl, rfl, fun h => ?_⟩
  have h2 := Option.some.inj h
  have h3 := congrArg
    (fun v => match v with | JValue.str s => s | _ => "") h2
  exact absurd h3 (by decide)

/-- C2 (amended): on every sigil-prefixed reserved wire key the flat map
produced by `GetMap` carries the reserved field's value, overriding any
same-named attribute, and the flat map has exactly one entry per distinct
key; the non-sigil header keys `id`/`object` are not emitted by `GetMap`,
so an attribute stored under them passes through unreplaced. -/
theorem sigil_precedence (p : Person) :
    ((GetMap p).map Prod.fst).Nodup ∧
    (∀ k v, mapGet (structToMap p) k = some v → mapGet (GetMap p) k = some v) ∧
    mapGet (GetMap pSigil) "id" = some (JValue.str "x") := by
  refine ⟨nodup_keys_GetMap p, fun k v h => ?_, rfl⟩
  exact mapGet_GetMap_reserved p k v (mapGet_mem _ _ _ h)

/-- Witness for C2 (amended) at `pSigil` and the colliding key `$email`. -/
theorem sigil_precedence_witness :
    ((GetMap pSigil).map Prod.fst).Nodup ∧
    mapGet (GetMap pSigil) "$email" = some (JValue.str "") := by
  refine ⟨(sigil_precedence pSigil).1,
    (sigil_precedence pSigil).2.1 "$email" (JValue.str "") rfl⟩

/-- C4 counterexample: with both header fields set, `GetMap` emits no entry
under `id` or `object`, and does emit the sigil key `$id` (absent from the
claimed key set). -/
theorem wire_keys_cex :
    pWire.Id = "y" ∧ pWire.Object = "person" ∧
    mapGet (GetMap pWire) "id" = none ∧
    mapGet (GetMap pWire) "object" = none ∧
    mapGet (GetMap pWire) "$id" = some (JValue.str "c") :=
  ⟨rfl, rfl, rfl, rfl, rfl⟩

/-- C4 (amended): the reserved keys emitted by flattening are exactly the 19
sigil-prefixed keys `$id, $address1, …, $zip` — `id` and `object` are not
among them — and `$consent` carries the array of consent strings. -/
theorem wire_keys_spec (p : Person) :
    (structToMap p).map Prod.fst = wireKeys ∧
    mapGet (structToMap p) "$consent" =
      some (JValue.arr (p.Consent.map JValue.str)) ∧
    "id" ∉ wireKeys ∧ "object" ∉ wireKeys ∧ "$id" ∈ wireKeys := by
  exact ⟨keys_structToMap p, rfl, by decide, by decide, by decide⟩

/-- C5: `ParseBool` returns `false` on a missing key, the boolean itself on a
boolean, `true` on a string exactly when it is `"true"` or `"1"`, and `false`
on every value of any other type. -/
theorem parseBool_spec (a : Attributes) (k : String) :
    (mapGet a k = none → ParseBool a k = false) ∧
    (∀ b, mapGet a k = some (JValue.bool b) → ParseBool a k = b) ∧
    (∀ s, mapGet a k = some (JValue.str s) →
      (ParseBool a k = true ↔ (s = "true" ∨ s = "1"))) ∧
    (∀ v, mapGet a k = some v → isStr v = false → isBool v = false →
      ParseBool a k = false) := by
  refine ⟨fun h => by simp [ParseBool, h], fun b h => by simp [ParseBool, h],
    fun s h => ?_, fun v h hs hb => ?_⟩
  · simp [ParseBool, h, Bool.or_eq_true, beq_iff_eq]
  · cases v with
    | str s => simp [isStr] at hs
    | bool b => simp [isBool] at hb
    | null => simp [ParseBool, h]
    | num q => simp [ParseBool, h]
    | arr xs => simp [ParseBool, h]
    | obj fs => simp [ParseBool, h]

/-- Witness for C5: the string `"1"` coerces to `true`, a number to `false`. -/
theorem parseBool_spec_witness :
    ParseBool [("k", JValue.str "1")] "k" = true ∧
    ParseBool [("k", JValue.num 0)] "k" = false := by
  constructor
  · exact ((parseBool_spec [("k", JValue.str "1")] "k").2.2.1 "1" rfl).mpr
      (Or.inr rfl)
  · exact (parseBool_spec [("k", JValue.num 0)] "k").2.2.2
      (JValue.num 0) rfl rfl rfl

/-- C6: `HasProfileIdentifier` is `false` exactly when both email and phone
number are empty or whitespace-only; on such a Person, `Identify` (on a
client holding its public key) fails with the no-profile-identifier
validation error before the network is reached. -/
theorem identifier_requirement (p : Person) (c : Client)
    (sendResult : Except KErr String) :
    (HasProfileIdentifier p = false ↔
      (p.Email.toList.all goIsSpace = true ∧
        p.PhoneNumber.toList.all goIsSpace = true)) ∧
    (c.PublicKey ≠ "" → HasProfileIdentifier p = false →
      Identify c p sendResult = (some KErr.noProfileIdentifier, false)) := by
  refine ⟨hasProfileIdentifier_false_iff p, fun hk hid => ?_⟩
  simp [Identify, IdentifySafe, hk, hid]

/-- Witness for C6: a whitespace-only email and empty phone number fail the
check and make `Identify` return the validation error without a network
call. -/
theorem identifier_requirement_witness :
    HasProfileIdentifier pBlank = false ∧
    Identify cliW pBlank (Except.ok "1") =
      (some KErr.noProfileIdentifier, false) := by
  have h := identifier_requirement pBlank cliW (Except.ok "1")
  exact ⟨h.1.mpr (by decide), h.2 (by decide) (h.1.mpr (by decide))⟩

/-- C7: the reported error string is `Message` when non-empty, else `Detail`
when non-empty, else the raw body `Raw`. -/
theorem apiError_precedence (e : APIError) :
    (e.Message ≠ "" → e.ErrorString = e.Message) ∧
    (e.Message = "" → e.Detail ≠ "" → e.ErrorString = e.Detail) ∧
    (e.Message = "" → e.Detail = "" → e.ErrorString = e.Raw) := by
  refine ⟨fun h => by simp [APIError.ErrorString, h],
    fun h1 h2 => by simp [APIError.ErrorString, h1, h2],
    fun h1 h2 => by simp [APIError.ErrorString, h1, h2]⟩

/-- Witness for C7 on the three concrete shapes. -/
theorem apiError_precedence_witness :
    APIError.ErrorString ⟨"raw", "det", "msg"⟩ = "msg" ∧
    APIError.ErrorString ⟨"raw", "det", ""⟩ = "det" ∧
    APIError.ErrorString ⟨"raw", "", ""⟩ = "raw" :=
  ⟨(apiError_precedence ⟨"raw", "det", "msg"⟩).1 (by decide),
    (apiError_precedence ⟨"raw", "det", ""⟩).2.1 rfl (by decide),
    (apiError_precedence ⟨"raw", "", ""⟩).2.2 rfl rfl⟩

/-- C8: when the transport and decode succeed but the decoded HTML sentinel
is not the literal `"1"`, `IdentifySafe` returns `ErrFailed`, an error value
distinct from every configuration, transport, remote, bad-response and
decode error. -/
theorem identify_sentinel (c : Client) (p : Person) (omitFlag : Bool)
    (res : String) (hk : c.PublicKey ≠ "")
    (hid : HasProfileIdentifier p = true) (hres : res ≠ "1") :
    IdentifySafe c p omitFlag (Except.ok res) = (some KErr.failed, true) ∧
    KErr.failed ≠ KErr.noPublicKey ∧ KErr.failed ≠ KErr.noPrivateKey ∧
    KErr.failed ≠ KErr.noProfileIdentifier ∧
    KErr.failed ≠ KErr.invalidOutArg ∧
    (∀ s, KErr.failed ≠ KErr.transport s) ∧
    (∀ e, KErr.failed ≠ KErr.api e) ∧
    (∀ s, KErr.failed ≠ KErr.badResponse s) ∧
    (∀ s, KErr.failed ≠ KErr.decodeFailure s) := by
  refine ⟨by simp [IdentifySafe, hk, hid, hres],
    fun h => KErr.noConfusion h, fun h => KErr.noConfusion h,
    fun h => KErr.noConfusion h, fun h => KErr.noConfusion h,
    fun s h => KErr.noConfusion h, fun e h => KErr.noConfusion h,
    fun s h => KErr.noConfusion h, fun s h => KErr.noConfusion h⟩

/-- Witness for C8: decoded body `"0"` yields the logical-failure error. -/
theorem identify_sentinel_witness :
    IdentifySafe cliW pIdent false (Except.ok "0") =
      (some KErr.failed, true) :=
  (identify_sentinel cliW pIdent false "0" (by decide) (by decide)
    (by decide)).1

/-- C9: `InList` with all three identifier lists empty returns an empty
result and no error without reaching the network. -/
theorem inList_short_circuit (c : Client) (listId : String)
    (netResult : Except KErr (List ListPerson)) :
    InList c listId [] [] [] netResult = (([], none), false) := by
  simp [InList]

end Klaviyo
